import Mathlib

/-!
# Stagehand agent process / PTY lifecycle subsystem — formal model

A shallow embedding of the Rust sources under `src-tauri/src` of the
stagehand repository, together with theorems settling the specification
claims about it.

Modelled source files:
* `agents.rs`      — the agent catalog (`Agent`, capability predicates);
* `commands/process.rs` — `TempContext`, the MCP config translators,
  `spawn_agent` (synchronous build/spawn phase) and its async completion
  task (as a small-step transition system), `check_agent_available`;
* `commands/pty.rs` — `spawn_pty` (synchronous phase) and its reader /
  exit-poll tasks (as a small-step transition system);
* `process_manager.rs`, `pty_manager.rs` — the registries and `kill`.

Conventions: fallible Rust code returns `Except String`; filesystem and
OS effects are driven by explicit oracle records; `serde_json` values
are modelled by the `Json` inductive with a fuel-based reader;
`str::to_lowercase` is modelled by ASCII case folding (every agent
identifier involved is ASCII).
-/

/-- Auxiliary: `Char.ofNat` of a valid code point round-trips to `toNat`. -/
theorem char_toNat_ofNat_valid (n : Nat) (hv : n.isValidChar) : (Char.ofNat n).toNat = n := by
  simp only [Char.ofNat, hv, dif_pos, Char.ofNatAux, Char.toNat]
  simp [UInt32.toNat, BitVec.toNat_ofNatLt]

/-- ASCII model of Rust `char` lowercasing as used by `str::to_lowercase`
(the agent identifiers are all ASCII). -/
def rustCharToLower (c : Char) : Char :=
  if 65 ≤ c.toNat ∧ c.toNat ≤ 90 then Char.ofNat (c.toNat + 32) else c

/-- Model of Rust `str::to_lowercase`. -/
def rustToLower (s : String) : String :=
  ⟨s.data.map rustCharToLower⟩

theorem rustCharToLower_idem (c : Char) :
    rustCharToLower (rustCharToLower c) = rustCharToLower c := by
  by_cases h : 65 ≤ c.toNat ∧ c.toNat ≤ 90
  · have hv : (c.toNat + 32).isValidChar := Or.inl (by omega)
    have ht : (Char.ofNat (c.toNat + 32)).toNat = c.toNat + 32 :=
      char_toNat_ofNat_valid _ hv
    simp only [rustCharToLower, if_pos h, ht]
    have hout : ¬(65 ≤ c.toNat + 32 ∧ c.toNat + 32 ≤ 90) := by omega
    rw [if_neg hout]
  · simp only [rustCharToLower, if_neg h]

theorem rustToLower_idem (s : String) : rustToLower (rustToLower s) = rustToLower s := by
  simp only [rustToLower, List.map_map]
  congr 1
  exact List.map_congr_left fun c _ => rustCharToLower_idem c

/-- `agents.rs`: the closed set of supported agents. -/
inductive Agent where
  | Claude
  | Codex
  | Gemini
  | Amp
  | OpenCode
deriving DecidableEq, Repr

/-- `agents.rs` `Agent::from_str_opt`: parse an identifier, `none` for
unrecognised values. The Rust code matches on `s.to_lowercase()`. -/
def Agent.from_str_opt (s : String) : Option Agent :=
  let l := rustToLower s
  if l = "claude" then some .Claude
  else if l = "codex" then some .Codex
  else if l = "gemini" then some .Gemini
  else if l = "amp" then some .Amp
  else if l = "opencode" then some .OpenCode
  else none

/-- `agents.rs` `Agent::binary`. -/
def Agent.binary : Agent → String
  | .Claude => "claude"
  | .Codex => "codex"
  | .Gemini => "gemini"
  | .Amp => "amp"
  | .OpenCode => "opencode"

/-- `agents.rs` `Agent::auto_approve_flag`. -/
def Agent.auto_approve_flag : Agent → Option String
  | .Claude => some "--dangerously-skip-permissions"
  | .Codex => some "--dangerously-bypass-approvals-and-sandbox"
  | .Gemini => some "--yolo"
  | .Amp => some "--dangerously-allow-all"
  | .OpenCode => none

/-- `agents.rs` `Agent::supports_session_id`. -/
def Agent.supports_session_id : Agent → Bool
  | .Claude => true
  | _ => false

/-- `agents.rs` `Agent::supports_append_system_prompt`. -/
def Agent.supports_append_system_prompt : Agent → Bool
  | .OpenCode => false
  | _ => true

/-- `agents.rs` `Agent::supports_no_session_persistence`. -/
def Agent.supports_no_session_persistence : Agent → Bool
  | .Claude => true
  | _ => false

/-- `agents.rs` `Agent::supports_allowed_tools`. -/
def Agent.supports_allowed_tools : Agent → Bool
  | .Claude => true
  | _ => false

/-- `agents.rs` `Agent::supports_max_turns`. -/
def Agent.supports_max_turns : Agent → Bool
  | .Claude => true
  | _ => false

/-- `agents.rs` `Agent::supports_verbose`. -/
def Agent.supports_verbose : Agent → Bool
  | .Claude => true
  | _ => false

/-- Agent resolution as performed by `spawn_agent`, `spawn_pty` and
`check_agent_available`:
`args.agent.as_deref().and_then(Agent::from_str_opt).unwrap_or(Agent::Claude)`. -/
def resolveAgent (agent : Option String) : Agent :=
  ((agent.bind Agent.from_str_opt).getD Agent.Claude)

/-- C10: agent identifier parsing is case-insensitive — parsing any string
equals parsing its lowercase form — and exactly the identifiers
`claude`, `codex`, `gemini`, `amp`, `opencode` (in any letter case, i.e.
whose lowercase form is one of those five words) parse to a known agent. -/
theorem agent_parse_case_insensitive (s : String) :
    Agent.from_str_opt s = Agent.from_str_opt (rustToLower s) ∧
    ((Agent.from_str_opt s).isSome ↔
      rustToLower s ∈ ["claude", "codex", "gemini", "amp", "opencode"]) := by
  constructor
  · simp only [Agent.from_str_opt, rustToLower_idem]
  · simp only [Agent.from_str_opt]
    split_ifs <;> simp_all

/-- Model of `serde_json::Value`. Object fields are kept sorted by key,
matching `serde_json`'s default `BTreeMap` representation; numbers keep
their source text (none of the modelled code computes with them). -/
inductive Json where
  | null
  | bool (b : Bool)
  | num (raw : String)
  | str (s : String)
  | arr (elems : List Json)
  | obj (fields : List (String × Json))

/-- Lexicographic order on char lists (UTF-8 byte order on `String`s
coincides with code-point order, which this computes). -/
def listLtB : List Char → List Char → Bool
  | [], [] => false
  | [], _ :: _ => true
  | _ :: _, [] => false
  | a :: as, b :: bs =>
    if a.toNat < b.toNat then true
    else if b.toNat < a.toNat then false
    else listLtB as bs

/-- The `BTreeMap<String, _>` key order. -/
def strLtB (a b : String) : Bool :=
  listLtB a.data b.data

/-- Insert into a sorted association list, replacing an equal key
(`BTreeMap::insert` semantics, last duplicate wins). -/
def objInsert : List (String × Json) → String → Json → List (String × Json)
  | [], k, v => [(k, v)]
  | (k', v') :: rest, k, v =>
    if strLtB k k' then (k, v) :: (k', v') :: rest
    else if k == k' then (k, v) :: rest
    else (k', v') :: objInsert rest k v

/-- Skip JSON whitespace. -/
def skipWs : List Char → List Char
  | c :: cs => if c = ' ' ∨ c = '\t' ∨ c = '\n' ∨ c = '\r' then skipWs cs else c :: cs
  | [] => []

/-- Hex digit value, if any. -/
def hexVal (c : Char) : Option Nat :=
  if '0' ≤ c ∧ c ≤ '9' then some (c.toNat - 48)
  else if 'a' ≤ c ∧ c ≤ 'f' then some (c.toNat - 97 + 10)
  else if 'A' ≤ c ∧ c ≤ 'F' then some (c.toNat - 65 + 10)
  else none

/-- Read a JSON string body (opening quote already consumed). -/
def readStringBody : Nat → List Char → List Char → Option (String × List Char)
  | 0, _, _ => none
  | _ + 1, _, [] => none
  | fuel + 1, acc, c :: cs =>
    if c = '"' then some (⟨acc.reverse⟩, cs)
    else if c = '\\' then
      match cs with
      | [] => none
      | e :: rest =>
        if e = '"' then readStringBody fuel ('"' :: acc) rest
        else if e = '\\' then readStringBody fuel ('\\' :: acc) rest
        else if e = '/' then readStringBody fuel ('/' :: acc) rest
        else if e = 'n' then readStringBody fuel ('\n' :: acc) rest
        else if e = 't' then readStringBody fuel ('\t' :: acc) rest
        else if e = 'r' then readStringBody fuel ('\r' :: acc) rest
        else if e = 'b' then readStringBody fuel ('\x08' :: acc) rest
        else if e = 'f' then readStringBody fuel ('\x0c' :: acc) rest
        else if e = 'u' then
          match rest with
          | h1 :: h2 :: h3 :: h4 :: rest' =>
            match hexVal h1, hexVal h2, hexVal h3, hexVal h4 with
            | some a, some b, some c', some d =>
              let n := ((a * 16 + b) * 16 + c') * 16 + d
              readStringBody fuel (Char.ofNat n :: acc) rest'
            | _, _, _, _ => none
          | _ => none
        else none
    else if c.toNat < 32 then none
    else readStringBody fuel (c :: acc) cs

/-- Read the exponent digits of a JSON number. -/
def readExpDigits (raw pre : List Char) (cs : List Char) : Option (Json × List Char) :=
  let (sgn, cs1) :=
    match cs with
    | '+' :: r => ((['+'] : List Char), r)
    | '-' :: r => ((['-'] : List Char), r)
    | _ => ([], cs)
  let ds := cs1.takeWhile Char.isDigit
  let cs2 := cs1.dropWhile Char.isDigit
  if ds = [] then none else some (.num ⟨raw ++ pre ++ sgn ++ ds⟩, cs2)

/-- Read the optional exponent part of a JSON number. -/
def readExpPart (raw : List Char) (cs : List Char) : Option (Json × List Char) :=
  match cs with
  | 'e' :: rest => readExpDigits raw ['e'] rest
  | 'E' :: rest => readExpDigits raw ['E'] rest
  | _ => some (.num ⟨raw⟩, cs)

/-- Read a JSON number, keeping its source text. -/
def readNumber (cs : List Char) : Option (Json × List Char) :=
  let (sign, cs1) :=
    match cs with
    | '-' :: rest => ((['-'] : List Char), rest)
    | _ => ([], cs)
  let ip := cs1.takeWhile Char.isDigit
  let cs2 := cs1.dropWhile Char.isDigit
  if ip = [] then none
  else
    match cs2 with
    | '.' :: rest =>
      let fd := rest.takeWhile Char.isDigit
      let cs3 := rest.dropWhile Char.isDigit
      if fd = [] then none
      else readExpPart (sign ++ ip ++ '.' :: fd) cs3
    | _ => readExpPart (sign ++ ip) cs2

mutual

/-- Read one JSON value (fuel-based recursion). -/
def readValue : Nat → List Char → Option (Json × List Char)
  | 0, _ => none
  | fuel + 1, cs =>
    match skipWs cs with
    | 'n' :: 'u' :: 'l' :: 'l' :: rest => some (.null, rest)
    | 't' :: 'r' :: 'u' :: 'e' :: rest => some (.bool true, rest)
    | 'f' :: 'a' :: 'l' :: 's' :: 'e' :: rest => some (.bool false, rest)
    | '"' :: rest => (readStringBody (fuel + 1) [] rest).map fun p => (.str p.1, p.2)
    | '[' :: rest =>
      (match skipWs rest with
       | ']' :: r2 => some (.arr [], r2)
       | _ => readItems fuel rest [])
    | '\x7b' :: rest =>
      (match skipWs rest with
       | '\x7d' :: r2 => some (.obj [], r2)
       | _ => readMembers fuel rest [])
    | c :: rest => if c = '-' ∨ c.isDigit then readNumber (c :: rest) else none
    | [] => none

/-- Read the remaining elements of a JSON array. -/
def readItems : Nat → List Char → List Json → Option (Json × List Char)
  | 0, _, _ => none
  | fuel + 1, cs, acc =>
    match readValue fuel cs with
    | some (v, rest) =>
      (match skipWs rest with
       | ',' :: r2 => readItems fuel r2 (v :: acc)
       | ']' :: r2 => some (.arr (v :: acc).reverse, r2)
       | _ => none)
    | none => none

/-- Read the remaining members of a JSON object. -/
def readMembers : Nat → List Char → List (String × Json) → Option (Json × List Char)
  | 0, _, _ => none
  | fuel + 1, cs, acc =>
    match skipWs cs with
    | '"' :: rest =>
      (match readStringBody (fuel + 1) [] rest with
       | some (k, r1) =>
         (match skipWs r1 with
          | ':' :: r2 =>
            (match readValue fuel r2 with
             | some (v, r3) =>
               (match skipWs r3 with
                | ',' :: r4 => readMembers fuel r4 (objInsert acc k v)
                | '\x7d' :: r4 => some (.obj (objInsert acc k v), r4)
                | _ => none)
             | none => none)
          | _ => none)
       | none => none)
    | _ => none

end

/-- Model of `serde_json::from_str::<Value>`: parse a complete JSON
document (the error text stands for serde's diagnostic, which the
modelled code only wraps). -/
def parseJson (s : String) : Except String Json :=
  match readValue (s.data.length + 2) s.data with
  | some (v, rest) =>
    if skipWs rest = [] then .ok v else .error "trailing characters"
  | none => .error "syntax error"

/-- `serde_json::Value::get` for a string key. -/
def Json.get : Json → String → Option Json
  | .obj fields, k => fields.lookup k
  | _, _ => none

/-- `serde_json::Value::as_object`. -/
def Json.asObject : Json → Option (List (String × Json))
  | .obj f => some f
  | _ => none

/-- `serde_json::Value::as_str`. -/
def Json.asStr : Json → Option String
  | .str s => some s
  | _ => none

/-- `serde_json::Value::as_array`. -/
def Json.asArr : Json → Option (List Json)
  | .arr a => some a
  | _ => none

/-- Rust `format!("{:?}", s)` on a string: quoted debug form. -/
def rustDebugEscape (c : Char) : String :=
  if c = '"' then "\\\""
  else if c = '\\' then "\\\\"
  else if c = '\n' then "\\n"
  else if c = '\r' then "\\r"
  else if c = '\t' then "\\t"
  else String.singleton c

/-- Rust `format!("{:?}", s)` for a whole string. -/
def rustDebugStr (s : String) : String :=
  "\"" ++ String.join (s.data.map rustDebugEscape) ++ "\""

/-- One `[[mcp_servers]]` block of the Codex TOML output: the body of the
`for (name, config) in servers` loop of `convert_mcp_json_to_codex_toml`. -/
def codexServerToml (name : String) (config : Json) : String :=
  "[[mcp_servers]]\n" ++ ("name = " ++ rustDebugStr name ++ "\n")
  ++ (match (config.get "command").bind Json.asStr with
      | some command => "command = " ++ rustDebugStr command ++ "\n"
      | none => "")
  ++ (match (config.get "args").bind Json.asArr with
      | some args =>
        "args = [" ++ String.intercalate ", " ((args.filterMap Json.asStr).map rustDebugStr)
          ++ "]\n"
      | none => "")
  ++ (match (config.get "env").bind Json.asObject with
      | some env =>
        if env.isEmpty then ""
        else
          "env = \x7b " ++ String.intercalate ", "
              (env.map fun p => p.1 ++ " = " ++ rustDebugStr (p.2.asStr.getD "")) ++ " \x7d\n"
      | none => "")
  ++ "\n"

/-- `process.rs` `convert_mcp_json_to_codex_toml`: translate Claude-format
MCP config JSON to Codex `.codex/config.toml` format. -/
def convert_mcp_json_to_codex_toml (mcp_json : String) : Except String String :=
  match parseJson mcp_json with
  | .error e => .error ("Invalid MCP JSON: " ++ e)
  | .ok parsed =>
    match (parsed.get "mcpServers").bind Json.asObject with
    | none => .error "MCP JSON missing mcpServers object"
    | some servers => .ok (String.join (servers.map fun p => codexServerToml p.1 p.2))

/-- `serde_json` string escaping for serialization. -/
def jsonEscapeChar (c : Char) : String :=
  if c = '"' then "\\\""
  else if c = '\\' then "\\\\"
  else if c = '\n' then "\\n"
  else if c = '\r' then "\\r"
  else if c = '\t' then "\\t"
  else if c = '\x08' then "\\b"
  else if c = '\x0c' then "\\f"
  else if c.toNat < 32 then
    "\\u00" ++ String.singleton ((Nat.digitChar (c.toNat / 16))) ++ String.singleton (Nat.digitChar (c.toNat % 16))
  else String.singleton c

/-- `serde_json` quoted string. -/
def jsonQuote (s : String) : String :=
  "\"" ++ String.join (s.data.map jsonEscapeChar) ++ "\""

/-- Two-space indentation used by `serde_json::to_string_pretty`. -/
def indentStr (n : Nat) : String :=
  String.join (List.replicate n "  ")

mutual

/-- Render a value as `serde_json::to_string_pretty` does (fuel-based
recursion over the finite value). -/
def renderPretty : Nat → Json → Nat → String
  | 0, _, _ => ""
  | fuel + 1, v, ind =>
    match v with
    | .null => "null"
    | .bool true => "true"
    | .bool false => "false"
    | .num raw => raw
    | .str s => jsonQuote s
    | .arr [] => "[]"
    | .arr (e :: es) => "[\n" ++ renderItems fuel (e :: es) (ind + 1) ++ indentStr ind ++ "]"
    | .obj [] => "\x7b\x7d"
    | .obj (f :: fs) => "\x7b\n" ++ renderFields fuel (f :: fs) (ind + 1) ++ indentStr ind ++ "\x7d"

/-- Render array elements, one per line. -/
def renderItems : Nat → List Json → Nat → String
  | 0, _, _ => ""
  | _ + 1, [], _ => ""
  | fuel + 1, [e], ind => indentStr ind ++ renderPretty fuel e ind ++ "\n"
  | fuel + 1, e :: rest, ind =>
    indentStr ind ++ renderPretty fuel e ind ++ ",\n" ++ renderItems fuel rest ind

/-- Render object members, one per line. -/
def renderFields : Nat → List (String × Json) → Nat → String
  | 0, _, _ => ""
  | _ + 1, [], _ => ""
  | fuel + 1, [(k, v)], ind => indentStr ind ++ jsonQuote k ++ ": " ++ renderPretty fuel v ind ++ "\n"
  | fuel + 1, (k, v) :: rest, ind =>
    indentStr ind ++ jsonQuote k ++ ": " ++ renderPretty fuel v ind ++ ",\n"
      ++ renderFields fuel rest ind

end

/-- Fuel bound for rendering: ample for every value this code handles
(the recursion depth is bounded by the value's size). -/
def renderFuel : Nat := 1000

/-- `process.rs` `convert_mcp_json_to_gemini_settings`: validate the
`mcpServers` structure and re-serialize the parsed value prettily. -/
def convert_mcp_json_to_gemini_settings (mcp_json : String) : Except String String :=
  match parseJson mcp_json with
  | .error e => .error ("Invalid MCP JSON: " ++ e)
  | .ok parsed =>
    match (parsed.get "mcpServers").bind Json.asObject with
    | none => .error "MCP JSON missing mcpServers object"
    | some _ => .ok (renderPretty renderFuel parsed 0)

/-- Boolean list-prefix test (used to state the round-trip facts). -/
def isPrefixB : List Char → List Char → Bool
  | [], _ => true
  | _ :: _, [] => false
  | a :: as, b :: bs => a = b && isPrefixB as bs

/-- Boolean list-infix test. -/
def isInfixB (needle : List Char) : List Char → Bool
  | [] => isPrefixB needle []
  | c :: cs => isPrefixB needle (c :: cs) || isInfixB needle cs

/-- String containment (used to state the round-trip facts). -/
def strContains (hay needle : String) : Bool :=
  isInfixB needle.data hay.data

/-- The canonical MCP configuration example from the specification:
`{"mcpServers":{"x":{"command":"node","args":["a"],"env":{"K":"V"}}}}`. -/
def canonicalMcpJson : String :=
  "\x7b\"mcpServers\":\x7b\"x\":\x7b\"command\":\"node\",\"args\":[\"a\"],\"env\":\x7b\"K\":\"V\"\x7d\x7d\x7d\x7d"

/-- Expected Codex TOML translation of `canonicalMcpJson`. -/
def canonicalCodexToml : String :=
  "[[mcp_servers]]\nname = \"x\"\ncommand = \"node\"\nargs = [\"a\"]\nenv = \x7b K = \"V\" \x7d\n\n"

/-- Expected Gemini settings translation of `canonicalMcpJson`. -/
def canonicalGeminiSettings : String :=
  "\x7b\n  \"mcpServers\": \x7b\n    \"x\": \x7b\n      \"args\": [\n        \"a\"\n      ],\n      \"command\": \"node\",\n      \"env\": \x7b\n        \"K\": \"V\"\n      \x7d\n    \x7d\n  \x7d\n\x7d"

deriving instance DecidableEq for Except

/-- C6: for both agent variants with a file-based MCP fallback (Codex and
Gemini), translating the canonical MCP JSON yields output containing the
server name `x`, the command `node`, the args `["a"]` and the env entry
`K=V`; and translating malformed JSON, or JSON lacking the `mcpServers`
top-level key, fails with a descriptive error. -/
theorem mcp_config_translation_round_trip :
    (convert_mcp_json_to_codex_toml canonicalMcpJson = .ok canonicalCodexToml) ∧
    (strContains canonicalCodexToml "name = \"x\"" = true ∧
      strContains canonicalCodexToml "command = \"node\"" = true ∧
      strContains canonicalCodexToml "args = [\"a\"]" = true ∧
      strContains canonicalCodexToml "K = \"V\"" = true) ∧
    (convert_mcp_json_to_gemini_settings canonicalMcpJson = .ok canonicalGeminiSettings) ∧
    (strContains canonicalGeminiSettings "\"x\":" = true ∧
      strContains canonicalGeminiSettings "\"command\": \"node\"" = true ∧
      strContains canonicalGeminiSettings "\"a\"" = true ∧
      strContains canonicalGeminiSettings "\"K\": \"V\"" = true) ∧
    (convert_mcp_json_to_codex_toml "not json" = .error "Invalid MCP JSON: syntax error") ∧
    (convert_mcp_json_to_gemini_settings "not json" = .error "Invalid MCP JSON: syntax error") ∧
    (convert_mcp_json_to_codex_toml "\x7b\x7d" = .error "MCP JSON missing mcpServers object") ∧
    (convert_mcp_json_to_gemini_settings "\x7b\x7d" = .error "MCP JSON missing mcpServers object") :=
  ⟨by decide, ⟨rfl, rfl, rfl, rfl⟩, by decide, ⟨rfl, rfl, rfl, rfl⟩, rfl, rfl, rfl, rfl⟩

/-- `events.rs` `AgentStreamEvent` (piped-mode stream events). -/
inductive AgentStreamEvent where
  | started (process_id : String) (session_id : Option String)
  | stdoutLine (line : String)
  | stderrLine (line : String)
  | completed (process_id : String) (exit_code : Option Int)
  | error (process_id : String) (message : String)
deriving DecidableEq, Repr

/-- `events.rs` `PtyEvent` (PTY-mode stream events). -/
inductive PtyEvent where
  | started (id : String)
  | output (data : String)
  | exited (id : String) (exit_code : Option Int)
  | error (id : String) (message : String)
deriving DecidableEq, Repr

/-- `process.rs` `SpawnAgentArgs`. -/
structure SpawnAgentArgs where
  prompt : String
  agent : Option String := none
  persona_model : Option String := none
  working_directory : Option String := none
  session_id : Option String := none
  stage_execution_id : Option String := none
  append_system_prompt : Option String := none
  json_schema : Option String := none
  output_format : Option String := none
  no_session_persistence : Option Bool := none
  allowed_tools : Option (List String) := none
  max_turns : Option Nat := none
  mcp_config : Option String := none
deriving DecidableEq, Repr

/-- Filesystem / OS oracle for one `spawn_agent` invocation: whether each
external effect the function attempts would succeed. -/
structure FsOracle where
  homeDir : Option String := some "/home/u"
  createDirOk : Bool := true
  writeTempOk : Bool := true
  writeWorkdirOk : Bool := true
  spawnOk : Bool := true
deriving DecidableEq, Repr

/-- State threaded through the command-building phase of `spawn_agent`:
the argv built so far (after the binary name), the environment overrides,
the files staged by the `TempContext`, and the pending early-return error
(`err = some e` models a `?` return carrying `e`; later steps are dead
code then and leave the state unchanged). -/
structure BuildState where
  argv : List String := []
  envs : List (String × String) := []
  tempFiles : List String := []
  workdirFiles : List String := []
  err : Option String := none
deriving DecidableEq, Repr

/-- The per-process scratch directory `~/.devflow/tmp/<process_id>`. -/
def tempCtxDir (o : FsOracle) (process_id : String) : String :=
  o.homeDir.getD "" ++ "/.devflow/tmp/" ++ process_id

/-- `TempContext::new`: find the home directory and create the scratch
directory; either can fail. -/
def tempCtxNew (o : FsOracle) : BuildState :=
  match o.homeDir with
  | none => { err := some "Could not find home directory" }
  | some _ =>
    if o.createDirOk then {} else { err := some "Failed to create temp dir" }

/-- `spawn_agent`: Codex runs as `codex exec …`. -/
def stepCodexExec (agent : Agent) (st : BuildState) : BuildState :=
  if st.err.isSome then st
  else if agent = .Codex then { st with argv := st.argv ++ ["exec"] }
  else st

/-- `spawn_agent`: the auto-approve flag, when the agent has one. -/
def stepAutoApprove (agent : Agent) (st : BuildState) : BuildState :=
  if st.err.isSome then st
  else
    match agent.auto_approve_flag with
    | some flag => { st with argv := st.argv ++ [flag] }
    | none => st

/-- `spawn_agent`: `-p <prompt>`. -/
def stepPrompt (args : SpawnAgentArgs) (st : BuildState) : BuildState :=
  if st.err.isSome then st
  else { st with argv := st.argv ++ ["-p", args.prompt] }

/-- `spawn_agent`: the per-agent output-format block. -/
def stepOutputFormat (agent : Agent) (args : SpawnAgentArgs) (st : BuildState) : BuildState :=
  if st.err.isSome then st
  else
    match agent with
    | .Claude =>
      let output_format := args.output_format.getD "stream-json"
      { st with argv := st.argv ++ ["--output-format", output_format]
          ++ (if output_format = "stream-json" ∧ Agent.Claude.supports_verbose then ["--verbose"]
              else []) }
    | .Codex => { st with argv := st.argv ++ ["--json"] }
    | .Gemini => { st with argv := st.argv ++ ["--output-format", "stream-json"] }
    | .OpenCode => { st with argv := st.argv ++ ["--output-format", "stream-json"] }
    | .Amp => { st with argv := st.argv ++ ["--stream-json"] }

/-- `spawn_agent`: model override (`persona_model`), for Codex, Gemini, Amp. -/
def stepPersonaModel (agent : Agent) (args : SpawnAgentArgs) (st : BuildState) : BuildState :=
  if st.err.isSome then st
  else
    match args.persona_model with
    | some model =>
      match agent with
      | .Codex | .Gemini | .Amp => { st with argv := st.argv ++ ["--model", model] }
      | _ => st
    | none => st

/-- `spawn_agent`: session id (Claude only). -/
def stepSessionId (agent : Agent) (args : SpawnAgentArgs) (st : BuildState) : BuildState :=
  if st.err.isSome then st
  else if agent.supports_session_id then
    match args.session_id with
    | some session_id => { st with argv := st.argv ++ ["--session-id", session_id] }
    | none => st
  else st

/-- `spawn_agent`: the per-agent system-prompt mechanism (flag for
Claude/Amp, staged `AGENTS.md` for Codex when a working directory exists,
temp file plus `GEMINI_SYSTEM_MD` for Gemini, nothing for OpenCode). -/
def stepSystemPrompt (agent : Agent) (args : SpawnAgentArgs) (o : FsOracle) (pid : String)
    (st : BuildState) : BuildState :=
  if st.err.isSome then st
  else
    match args.append_system_prompt with
    | none => st
    | some system_prompt =>
      match agent with
      | .Claude | .Amp =>
        { st with argv := st.argv ++ ["--append-system-prompt", system_prompt] }
      | .Codex =>
        match args.working_directory with
        | some dir =>
          if o.writeWorkdirOk then
            { st with workdirFiles := st.workdirFiles ++ [dir ++ "/AGENTS.md"] }
          else { st with err := some "Failed to write workdir file" }
        | none => st
      | .Gemini =>
        if o.writeTempOk then
          let path := tempCtxDir o pid ++ "/system_prompt.md"
          { st with tempFiles := st.tempFiles ++ [path]
                    envs := st.envs ++ [("GEMINI_SYSTEM_MD", path)] }
        else { st with err := some "Failed to write temp file" }
      | .OpenCode => st

/-- `spawn_agent`: the per-agent JSON-schema mechanism. -/
def stepJsonSchema (agent : Agent) (args : SpawnAgentArgs) (o : FsOracle) (pid : String)
    (st : BuildState) : BuildState :=
  if st.err.isSome then st
  else
    match args.json_schema with
    | none => st
    | some schema =>
      match agent with
      | .Claude => { st with argv := st.argv ++ ["--json-schema", schema] }
      | .Codex =>
        if o.writeTempOk then
          let path := tempCtxDir o pid ++ "/output_schema.json"
          { st with tempFiles := st.tempFiles ++ [path]
                    argv := st.argv ++ ["--output-schema", path] }
        else { st with err := some "Failed to write temp file" }
      | _ => st

/-- `spawn_agent`: `--no-session-persistence` (Claude only). -/
def stepNoSessionPersistence (agent : Agent) (args : SpawnAgentArgs) (st : BuildState) :
    BuildState :=
  if st.err.isSome then st
  else if agent.supports_no_session_persistence ∧ args.no_session_persistence.getD false then
    { st with argv := st.argv ++ ["--no-session-persistence"] }
  else st

/-- `spawn_agent`: the tool allowlist (Claude only). An empty list passes
the non-existent tool name `_none_`; a non-empty list passes one
`--allowedTools <tool>` pair per tool. -/
def stepAllowedTools (agent : Agent) (args : SpawnAgentArgs) (st : BuildState) : BuildState :=
  if st.err.isSome then st
  else if agent.supports_allowed_tools then
    match args.allowed_tools with
    | some tools =>
      if tools.isEmpty then { st with argv := st.argv ++ ["--allowedTools", "_none_"] }
      else
        { st with argv := st.argv ++ (tools.map fun tool => ["--allowedTools", tool]).flatten }
    | none => st
  else st

/-- `spawn_agent`: `--max-turns` (Claude only). -/
def stepMaxTurns (agent : Agent) (args : SpawnAgentArgs) (st : BuildState) : BuildState :=
  if st.err.isSome then st
  else if agent.supports_max_turns then
    match args.max_turns with
    | some max_turns => { st with argv := st.argv ++ ["--max-turns", toString max_turns] }
    | none => st
  else st

/-- `spawn_agent`: the per-agent MCP-config mechanism (flag for Claude,
translated config file in the working directory for Codex/Gemini when a
working directory exists, nothing otherwise). -/
def stepMcpConfig (agent : Agent) (args : SpawnAgentArgs) (o : FsOracle) (st : BuildState) :
    BuildState :=
  if st.err.isSome then st
  else
    match args.mcp_config with
    | none => st
    | some mcp_config =>
      match agent with
      | .Claude => { st with argv := st.argv ++ ["--mcp-config", mcp_config] }
      | .Codex =>
        match args.working_directory with
        | some dir =>
          match convert_mcp_json_to_codex_toml mcp_config with
          | .ok _ =>
            if o.writeWorkdirOk then
              { st with workdirFiles := st.workdirFiles ++ [dir ++ "/.codex/config.toml"] }
            else { st with err := some "Failed to write workdir file" }
          | .error e => { st with err := some e }
        | none => st
      | .Gemini =>
        match args.working_directory with
        | some dir =>
          match convert_mcp_json_to_gemini_settings mcp_config with
          | .ok _ =>
            if o.writeWorkdirOk then
              { st with workdirFiles := st.workdirFiles ++ [dir ++ "/.gemini/settings.json"] }
            else { st with err := some "Failed to write workdir file" }
          | .error e => { st with err := some e }
        | none => st
      | .Amp | .OpenCode => st

/-- The whole synchronous command-building phase of `spawn_agent`, in
source order: agent resolution, `TempContext::new`, then one step per
source block. -/
def spawn_agent_build (args : SpawnAgentArgs) (o : FsOracle) (pid : String) :
    Agent × BuildState :=
  let agent := resolveAgent args.agent
  let st := tempCtxNew o
  let st := stepCodexExec agent st
  let st := stepAutoApprove agent st
  let st := stepPrompt args st
  let st := stepOutputFormat agent args st
  let st := stepPersonaModel agent args st
  let st := stepSessionId agent args st
  let st := stepSystemPrompt agent args o pid st
  let st := stepJsonSchema agent args o pid st
  let st := stepNoSessionPersistence agent args st
  let st := stepAllowedTools agent args st
  let st := stepMaxTurns agent args st
  let st := stepMcpConfig agent args o st
  (agent, st)

/-- The synchronous outcome of one `spawn_agent` call: its returned value,
the registry/event effects performed before returning, and how many times
`TempContext::cleanup` ran on this (synchronous) path. The successful
path hands the `TempContext` to the async completion task (modelled by
the transition system below), which is the only place `cleanup` is
called in the source. -/
structure SpawnOutcome where
  result : Except String String
  agentUsed : Agent
  build : BuildState
  registered : Bool
  events : List AgentStreamEvent
  cleanupRuns : Nat
deriving DecidableEq, Repr

/-- `spawn_agent`, synchronous part: build the command; on a build error
return it (no registration, no events, no cleanup — the `TempContext` is
dropped without its `cleanup` being called); otherwise try to spawn the
child; on spawn failure likewise return the error; on success register
the process, emit `Started`, and return the process id. -/
def spawn_agent_model (args : SpawnAgentArgs) (o : FsOracle) (pid : String) : SpawnOutcome :=
  let agent := (spawn_agent_build args o pid).1
  let st := (spawn_agent_build args o pid).2
  match st.err with
  | some e =>
    { result := .error e, agentUsed := agent, build := st, registered := false,
      events := [], cleanupRuns := 0 }
  | none =>
    if o.spawnOk then
      { result := .ok pid, agentUsed := agent, build := st, registered := true,
        events := [.started pid args.session_id], cleanupRuns := 0 }
    else
      { result := .error ("Failed to spawn " ++ agent.binary ++ ": spawn error"),
        agentUsed := agent, build := st, registered := false, events := [],
        cleanupRuns := 0 }

/-- The first component of the build is always the resolved agent. -/
theorem spawn_agent_build_fst (args : SpawnAgentArgs) (o : FsOracle) (pid : String) :
    (spawn_agent_build args o pid).1 = resolveAgent args.agent := rfl

/-- C4: when spawning the child process fails, `spawn_agent` returns the
error synchronously, creates no registry entry, and emits no stream
event (in particular no `Started`). -/
theorem spawn_failure_is_synchronous (args : SpawnAgentArgs) (o : FsOracle) (pid : String)
    (hbuild : (spawn_agent_build args o pid).2.err = none) (hspawn : o.spawnOk = false) :
    (spawn_agent_model args o pid).result =
      .error ("Failed to spawn " ++ (resolveAgent args.agent).binary ++ ": spawn error") ∧
    (spawn_agent_model args o pid).registered = false ∧
    (spawn_agent_model args o pid).events = [] := by
  have hfst := spawn_agent_build_fst args o pid
  rcases hsb : spawn_agent_build args o pid with ⟨agent, st⟩
  rw [hsb] at hfst hbuild
  dsimp only at hfst hbuild
  subst hfst
  unfold spawn_agent_model
  rw [hsb]
  dsimp only
  rw [hbuild, hspawn]
  exact ⟨rfl, rfl, rfl⟩

/-- C4 witness: a concrete failing spawn. -/
theorem spawn_failure_is_synchronous_witness :
    (spawn_agent_model { prompt := "hi" } { spawnOk := false } "p1").result =
      .error ("Failed to spawn " ++ (resolveAgent none).binary ++ ": spawn error") ∧
    (spawn_agent_model { prompt := "hi" } { spawnOk := false } "p1").registered = false ∧
    (spawn_agent_model { prompt := "hi" } { spawnOk := false } "p1").events = [] :=
  spawn_failure_is_synchronous { prompt := "hi" } { spawnOk := false } "p1" rfl rfl

/-- C3 (failing path): a Codex invocation that stages `AGENTS.md` into the
working directory and then fails to spawn returns the spawn error with
the staged file still on disk and `TempContext::cleanup` never invoked
(the source has no `Drop` impl and only calls `cleanup` in the async
completion task, which is never created on this path). -/
theorem temp_cleanup_skipped_on_spawn_failure :
    (spawn_agent_model
        { prompt := "hi", agent := some "codex", working_directory := some "/w",
          append_system_prompt := some "instructions" }
        { spawnOk := false } "p1").result = .error "Failed to spawn codex: spawn error" ∧
    (spawn_agent_model
        { prompt := "hi", agent := some "codex", working_directory := some "/w",
          append_system_prompt := some "instructions" }
        { spawnOk := false } "p1").build.workdirFiles = ["/w/AGENTS.md"] ∧
    (spawn_agent_model
        { prompt := "hi", agent := some "codex", working_directory := some "/w",
          append_system_prompt := some "instructions" }
        { spawnOk := false } "p1").cleanupRuns = 0 := by
  refine ⟨?_, ?_, ?_⟩ <;> decide

/-- For Codex and Gemini the MCP block is a no-op when no working
directory was supplied — the translator is never even called. -/
theorem stepMcpConfig_skip (agent : Agent) (args : SpawnAgentArgs) (o : FsOracle)
    (hag : agent = .Codex ∨ agent = .Gemini) (hwd : args.working_directory = none)
    (st : BuildState) : stepMcpConfig agent args o st = st := by
  unfold stepMcpConfig
  rcases hag with h | h <;> subst h <;> cases hmc : args.mcp_config <;> simp [hwd]

/-- For Codex the system-prompt block is a no-op when no working
directory was supplied. -/
theorem stepSystemPrompt_codex_skip (args : SpawnAgentArgs) (o : FsOracle) (pid : String)
    (hwd : args.working_directory = none) (st : BuildState) :
    stepSystemPrompt .Codex args o pid st = st := by
  unfold stepSystemPrompt
  cases hsp : args.append_system_prompt <;> simp [hwd]

/-- `TempContext::new` stages no working-directory files. -/
theorem tempCtxNew_wdf (o : FsOracle) : (tempCtxNew o).workdirFiles = [] := by
  unfold tempCtxNew
  cases o.homeDir
  · rfl
  · dsimp only
    split <;> rfl

/-- The Codex `exec` block never touches staged files. -/
theorem stepCodexExec_wdf (agent : Agent) (st : BuildState) :
    (stepCodexExec agent st).workdirFiles = st.workdirFiles := by
  unfold stepCodexExec
  split_ifs <;> rfl

/-- The auto-approve block never touches staged files. -/
theorem stepAutoApprove_wdf (agent : Agent) (st : BuildState) :
    (stepAutoApprove agent st).workdirFiles = st.workdirFiles := by
  unfold stepAutoApprove
  split
  · rfl
  · cases agent.auto_approve_flag <;> rfl

/-- The prompt block never touches staged files. -/
theorem stepPrompt_wdf (args : SpawnAgentArgs) (st : BuildState) :
    (stepPrompt args st).workdirFiles = st.workdirFiles := by
  unfold stepPrompt
  split <;> rfl

/-- The output-format block never touches staged files. -/
theorem stepOutputFormat_wdf (agent : Agent) (args : SpawnAgentArgs) (st : BuildState) :
    (stepOutputFormat agent args st).workdirFiles = st.workdirFiles := by
  unfold stepOutputFormat
  split
  · rfl
  · cases agent <;> rfl

/-- The model-override block never touches staged files. -/
theorem stepPersonaModel_wdf (agent : Agent) (args : SpawnAgentArgs) (st : BuildState) :
    (stepPersonaModel agent args st).workdirFiles = st.workdirFiles := by
  unfold stepPersonaModel
  split
  · rfl
  · cases args.persona_model
    · rfl
    · cases agent <;> rfl

/-- The session-id block never touches staged files. -/
theorem stepSessionId_wdf (agent : Agent) (args : SpawnAgentArgs) (st : BuildState) :
    (stepSessionId agent args st).workdirFiles = st.workdirFiles := by
  unfold stepSessionId
  split_ifs
  · rfl
  · cases args.session_id <;> rfl
  · rfl

/-- Without a working directory, the system-prompt block stages no
working-directory file (Gemini's fallback uses the scratch directory). -/
theorem stepSystemPrompt_wdf (agent : Agent) (args : SpawnAgentArgs) (o : FsOracle)
    (pid : String) (hwd : args.working_directory = none) (st : BuildState) :
    (stepSystemPrompt agent args o pid st).workdirFiles = st.workdirFiles := by
  unfold stepSystemPrompt
  split
  · rfl
  · cases args.append_system_prompt
    · rfl
    · cases agent <;> simp [hwd] <;> split_ifs <;> rfl

/-- The JSON-schema block stages only scratch-directory files. -/
theorem stepJsonSchema_wdf (agent : Agent) (args : SpawnAgentArgs) (o : FsOracle)
    (pid : String) (st : BuildState) :
    (stepJsonSchema agent args o pid st).workdirFiles = st.workdirFiles := by
  unfold stepJsonSchema
  split
  · rfl
  · cases args.json_schema
    · rfl
    · cases agent <;> first
      | rfl
      | (split_ifs <;> rfl)

/-- The session-persistence block never touches staged files. -/
theorem stepNoSessionPersistence_wdf (agent : Agent) (args : SpawnAgentArgs) (st : BuildState) :
    (stepNoSessionPersistence agent args st).workdirFiles = st.workdirFiles := by
  unfold stepNoSessionPersistence
  split_ifs <;> rfl

/-- The allowlist block never touches staged files. -/
theorem stepAllowedTools_wdf (agent : Agent) (args : SpawnAgentArgs) (st : BuildState) :
    (stepAllowedTools agent args st).workdirFiles = st.workdirFiles := by
  unfold stepAllowedTools
  split_ifs
  · rfl
  · cases args.allowed_tools
    · rfl
    · dsimp only
      split_ifs <;> rfl
  · rfl

/-- The max-turns block never touches staged files. -/
theorem stepMaxTurns_wdf (agent : Agent) (args : SpawnAgentArgs) (st : BuildState) :
    (stepMaxTurns agent args st).workdirFiles = st.workdirFiles := by
  unfold stepMaxTurns
  split_ifs
  · rfl
  · cases args.max_turns <;> rfl
  · rfl

/-- C8: when a feature is bridged via working-directory files (the Codex
system prompt, and the MCP config for Codex and Gemini) but no
`workingDirectory` was supplied, the fallback is silently skipped: the
build is identical to one with that field absent (so no file is staged,
no flag or environment variable is added, and even a malformed
`mcpConfig` causes no error), and no working-directory file at all is
staged. -/
theorem missing_workdir_skips_file_fallbacks (args : SpawnAgentArgs) (o : FsOracle)
    (pid : String)
    (hag : resolveAgent args.agent = .Codex ∨ resolveAgent args.agent = .Gemini)
    (hwd : args.working_directory = none) :
    spawn_agent_build args o pid = spawn_agent_build { args with mcp_config := none } o pid ∧
    (spawn_agent_build args o pid).2.workdirFiles = [] ∧
    (resolveAgent args.agent = .Codex →
      spawn_agent_build args o pid =
        spawn_agent_build
          { args with mcp_config := none, append_system_prompt := none } o pid) := by
  have hwd1 : ({ args with mcp_config := none } : SpawnAgentArgs).working_directory = none := hwd
  have hag1 : resolveAgent ({ args with mcp_config := none } : SpawnAgentArgs).agent = .Codex ∨
      resolveAgent ({ args with mcp_config := none } : SpawnAgentArgs).agent = .Gemini := hag
  refine ⟨?_, ?_, ?_⟩
  · unfold spawn_agent_build
    dsimp only
    rw [stepMcpConfig_skip _ _ _ hag hwd, stepMcpConfig_skip _ _ _ hag1 hwd1]
    dsimp only [stepCodexExec, stepAutoApprove, stepPrompt, stepOutputFormat, stepPersonaModel,
      stepSessionId, stepSystemPrompt, stepJsonSchema, stepNoSessionPersistence,
      stepAllowedTools, stepMaxTurns, tempCtxNew]
  · unfold spawn_agent_build
    dsimp only
    rw [stepMcpConfig_skip _ _ _ hag hwd]
    rw [stepMaxTurns_wdf, stepAllowedTools_wdf, stepNoSessionPersistence_wdf,
      stepJsonSchema_wdf, stepSystemPrompt_wdf _ _ _ _ hwd, stepSessionId_wdf,
      stepPersonaModel_wdf, stepOutputFormat_wdf, stepPrompt_wdf, stepAutoApprove_wdf,
      stepCodexExec_wdf, tempCtxNew_wdf]
  · intro hcodex
    have hwd2 : ({ args with mcp_config := none, append_system_prompt := none } :
        SpawnAgentArgs).working_directory = none := hwd
    unfold spawn_agent_build
    dsimp only
    rw [hcodex]
    rw [stepMcpConfig_skip _ _ _ (Or.inl rfl) hwd,
      stepMcpConfig_skip _ _ _ (Or.inl rfl) hwd2,
      stepSystemPrompt_codex_skip _ _ _ hwd, stepSystemPrompt_codex_skip _ _ _ hwd2]
    dsimp only [stepCodexExec, stepAutoApprove, stepPrompt, stepOutputFormat, stepPersonaModel,
      stepSessionId, stepJsonSchema, stepNoSessionPersistence, stepAllowedTools,
      stepMaxTurns, tempCtxNew]

theorem tempCtxNew_ok (o : FsOracle) (h1 : o.homeDir.isSome = true)
    (h2 : o.createDirOk = true) : tempCtxNew o = ⟨[], [], [], [], none⟩ := by
  obtain ⟨home, hh⟩ := Option.isSome_iff_exists.mp h1
  unfold tempCtxNew
  rw [hh]
  simp [h2]

theorem stepCodexExec_claude (st : BuildState) : stepCodexExec .Claude st = st := by
  unfold stepCodexExec
  split <;> rfl

theorem stepAutoApprove_claude (A : List String) (E : List (String × String))
    (T W : List String) : stepAutoApprove .Claude ⟨A, E, T, W, none⟩ =
      ⟨A ++ ["--dangerously-skip-permissions"], E, T, W, none⟩ := rfl

theorem stepPrompt_ok (args : SpawnAgentArgs) (A : List String) (E : List (String × String))
    (T W : List String) : stepPrompt args ⟨A, E, T, W, none⟩ =
      ⟨A ++ ["-p", args.prompt], E, T, W, none⟩ := rfl

theorem stepOutputFormat_claude (args : SpawnAgentArgs) (A : List String)
    (E : List (String × String)) (T W : List String) :
    stepOutputFormat .Claude args ⟨A, E, T, W, none⟩ =
      ⟨A ++ ["--output-format", args.output_format.getD "stream-json"]
        ++ (if args.output_format.getD "stream-json" = "stream-json" then ["--verbose"]
            else []), E, T, W, none⟩ := by
  unfold stepOutputFormat
  simp [Agent.supports_verbose]

theorem stepPersonaModel_claude (args : SpawnAgentArgs) (st : BuildState) :
    stepPersonaModel .Claude args st = st := by
  unfold stepPersonaModel
  split
  · rfl
  · cases args.persona_model <;> rfl

theorem stepSessionId_claude (args : SpawnAgentArgs) (A : List String)
    (E : List (String × String)) (T W : List String) :
    stepSessionId .Claude args ⟨A, E, T, W, none⟩ =
      ⟨A ++ (match args.session_id with
             | some sid => ["--session-id", sid]
             | none => []), E, T, W, none⟩ := by
  unfold stepSessionId
  cases args.session_id <;> simp [Agent.supports_session_id]

theorem stepSystemPrompt_claude (args : SpawnAgentArgs) (o : FsOracle) (pid : String)
    (A : List String) (E : List (String × String)) (T W : List String) :
    stepSystemPrompt .Claude args o pid ⟨A, E, T, W, none⟩ =
      ⟨A ++ (match args.append_system_prompt with
             | some sp => ["--append-system-prompt", sp]
             | none => []), E, T, W, none⟩ := by
  unfold stepSystemPrompt
  cases args.append_system_prompt <;> simp

theorem stepJsonSchema_claude (args : SpawnAgentArgs) (o : FsOracle) (pid : String)
    (A : List String) (E : List (String × String)) (T W : List String) :
    stepJsonSchema .Claude args o pid ⟨A, E, T, W, none⟩ =
      ⟨A ++ (match args.json_schema with
             | some js => ["--json-schema", js]
             | none => []), E, T, W, none⟩ := by
  unfold stepJsonSchema
  cases args.json_schema <;> simp

theorem stepNoSessionPersistence_claude (args : SpawnAgentArgs) (A : List String)
    (E : List (String × String)) (T W : List String) :
    stepNoSessionPersistence .Claude args ⟨A, E, T, W, none⟩ =
      ⟨A ++ (if args.no_session_persistence.getD false then ["--no-session-persistence"]
             else []), E, T, W, none⟩ := by
  unfold stepNoSessionPersistence
  simp [Agent.supports_no_session_persistence]
  split_ifs <;> simp

theorem stepAllowedTools_claude (args : SpawnAgentArgs) (A : List String)
    (E : List (String × String)) (T W : List String) :
    stepAllowedTools .Claude args ⟨A, E, T, W, none⟩ =
      ⟨A ++ (match args.allowed_tools with
             | some tools =>
               if tools.isEmpty then ["--allowedTools", "_none_"]
               else (tools.map fun tool => ["--allowedTools", tool]).flatten
             | none => []), E, T, W, none⟩ := by
  unfold stepAllowedTools
  cases args.allowed_tools
  · simp
  · simp only [Agent.supports_allowed_tools]
    split_ifs <;> simp_all

theorem stepMaxTurns_claude (args : SpawnAgentArgs) (A : List String)
    (E : List (String × String)) (T W : List String) :
    stepMaxTurns .Claude args ⟨A, E, T, W, none⟩ =
      ⟨A ++ (match args.max_turns with
             | some n => ["--max-turns", toString n]
             | none => []), E, T, W, none⟩ := by
  unfold stepMaxTurns
  cases args.max_turns <;> simp [Agent.supports_max_turns]

theorem stepMcpConfig_claude (args : SpawnAgentArgs) (o : FsOracle) (A : List String)
    (E : List (String × String)) (T W : List String) :
    stepMcpConfig .Claude args o ⟨A, E, T, W, none⟩ =
      ⟨A ++ (match args.mcp_config with
             | some m => ["--mcp-config", m]
             | none => []), E, T, W, none⟩ := by
  unfold stepMcpConfig
  cases args.mcp_config <;> simp

theorem claude_build_shape (args : SpawnAgentArgs) (o : FsOracle) (pid : String)
    (hag : resolveAgent args.agent = .Claude) (hhome : o.homeDir.isSome = true)
    (hcd : o.createDirOk = true) :
    spawn_agent_build args o pid =
      (.Claude,
        ⟨["--dangerously-skip-permissions", "-p", args.prompt, "--output-format",
            args.output_format.getD "stream-json"]
          ++ (if args.output_format.getD "stream-json" = "stream-json" then ["--verbose"]
              else [])
          ++ (match args.session_id with
              | some sid => ["--session-id", sid]
              | none => [])
          ++ (match args.append_system_prompt with
              | some sp => ["--append-system-prompt", sp]
              | none => [])
          ++ (match args.json_schema with
              | some js => ["--json-schema", js]
              | none => [])
          ++ (if args.no_session_persistence.getD false then ["--no-session-persistence"]
              else [])
          ++ (match args.allowed_tools with
              | some tools =>
                if tools.isEmpty then ["--allowedTools", "_none_"]
                else (tools.map fun tool => ["--allowedTools", tool]).flatten
              | none => [])
          ++ (match args.max_turns with
              | some n => ["--max-turns", toString n]
              | none => [])
          ++ (match args.mcp_config with
              | some m => ["--mcp-config", m]
              | none => []), [], [], [], none⟩) := by
  unfold spawn_agent_build
  dsimp only
  rw [hag, tempCtxNew_ok o hhome hcd, stepCodexExec_claude, stepAutoApprove_claude,
    stepPrompt_ok, stepOutputFormat_claude, stepPersonaModel_claude, stepSessionId_claude,
    stepSystemPrompt_claude, stepJsonSchema_claude, stepNoSessionPersistence_claude,
    stepAllowedTools_claude, stepMaxTurns_claude, stepMcpConfig_claude]
  simp [List.append_assoc]

set_option maxHeartbeats 4000000 in
theorem allowed_tools_absent_vs_empty (args : SpawnAgentArgs) (o : FsOracle) (pid : String)
    (hag : resolveAgent args.agent = .Claude) (hhome : o.homeDir.isSome = true)
    (hcd : o.createDirOk = true)
    (hfree : ∀ x ∈ [args.prompt, args.output_format.getD "stream-json"]
        ++ args.session_id.toList ++ args.append_system_prompt.toList
        ++ args.json_schema.toList ++ (args.max_turns.map toString).toList
        ++ args.mcp_config.toList,
      x ≠ "--allowedTools" ∧ x ≠ "_none_") :
    (args.allowed_tools = none →
      ((spawn_agent_build args o pid).2.argv.count "--allowedTools" = 0 ∧
        (spawn_agent_build args o pid).2.argv.count "_none_" = 0)) ∧
    (args.allowed_tools = some [] →
      ((spawn_agent_build args o pid).2.argv.count "--allowedTools" = 1 ∧
        (spawn_agent_build args o pid).2.argv.count "_none_" = 1)) := by
  have hshape := claude_build_shape args o pid hag hhome hcd
  have hp := hfree args.prompt (by simp)
  have hof := hfree (args.output_format.getD "stream-json") (by simp)
  have hsid : ∀ s, args.session_id = some s → s ≠ "--allowedTools" ∧ s ≠ "_none_" :=
    fun s hs => hfree s (by simp [hs])
  have hsp : ∀ s, args.append_system_prompt = some s → s ≠ "--allowedTools" ∧ s ≠ "_none_" :=
    fun s hs => hfree s (by simp [hs])
  have hjs : ∀ s, args.json_schema = some s → s ≠ "--allowedTools" ∧ s ≠ "_none_" :=
    fun s hs => hfree s (by simp [hs])
  have hmt : ∀ n, args.max_turns = some n →
      toString n ≠ "--allowedTools" ∧ toString n ≠ "_none_" :=
    fun n hn => hfree (toString n) (by simp [hn])
  have hmc : ∀ s, args.mcp_config = some s → s ≠ "--allowedTools" ∧ s ≠ "_none_" :=
    fun s hs => hfree s (by simp [hs])
  constructor
  · intro hat
    rw [hshape]
    dsimp only
    rw [hat]
    obtain ⟨hp1, hp2⟩ := hp
    obtain ⟨hof1, hof2⟩ := hof
    clear hshape hfree
    cases h1 : args.session_id <;> cases h2 : args.append_system_prompt <;>
      cases h3 : args.json_schema <;> cases h4 : args.max_turns <;>
      cases h5 : args.mcp_config <;>
      simp_all [List.count_append, List.count_cons] <;>
      split_ifs <;> simp_all
  · intro hat
    rw [hshape]
    dsimp only
    rw [hat]
    obtain ⟨hp1, hp2⟩ := hp
    obtain ⟨hof1, hof2⟩ := hof
    clear hshape hfree
    cases h1 : args.session_id <;> cases h2 : args.append_system_prompt <;>
      cases h3 : args.json_schema <;> cases h4 : args.max_turns <;>
      cases h5 : args.mcp_config <;>
      simp_all [List.count_append, List.count_cons] <;>
      split_ifs <;> simp_all

/-- C5 witness: a concrete request with default fields. -/
theorem allowed_tools_absent_vs_empty_witness :
    ((spawn_agent_build { prompt := "hi" } {} "p1").2.argv.count "--allowedTools" = 0 ∧
      (spawn_agent_build { prompt := "hi" } {} "p1").2.argv.count "_none_" = 0) ∧
    ((spawn_agent_build { prompt := "hi", allowed_tools := some [] } {} "p1").2.argv.count
        "--allowedTools" = 1 ∧
      (spawn_agent_build { prompt := "hi", allowed_tools := some [] } {} "p1").2.argv.count
        "_none_" = 1) :=
  ⟨(allowed_tools_absent_vs_empty { prompt := "hi" } {} "p1" rfl rfl rfl
      (by intro x hx; fin_cases hx <;> exact ⟨by decide, by decide⟩)).1 rfl,
    (allowed_tools_absent_vs_empty { prompt := "hi", allowed_tools := some [] } {} "p1" rfl rfl
      rfl (by intro x hx; fin_cases hx <;> exact ⟨by decide, by decide⟩)).2 rfl⟩

/-- C8 witness: a Codex request with a malformed MCP config and no working
directory builds identically to one with no MCP config at all. -/
theorem missing_workdir_skips_file_fallbacks_witness :
    spawn_agent_build
        { prompt := "hi", agent := some "codex", mcp_config := some "not json" } {} "p1" =
      spawn_agent_build
        { prompt := "hi", agent := some "codex", mcp_config := none } {} "p1" ∧
    (spawn_agent_build
        { prompt := "hi", agent := some "codex", mcp_config := some "not json" }
        {} "p1").2.workdirFiles = [] :=
  ⟨(missing_workdir_skips_file_fallbacks
      { prompt := "hi", agent := some "codex", mcp_config := some "not json" } {} "p1"
      (Or.inl (by decide)) rfl).1,
    (missing_workdir_skips_file_fallbacks
      { prompt := "hi", agent := some "codex", mcp_config := some "not json" } {} "p1"
      (Or.inl (by decide)) rfl).2.1⟩

/-- `pty.rs` `SpawnPtyArgs`. -/
structure SpawnPtyArgs where
  agent : Option String := none
  working_directory : Option String := none
  append_system_prompt : Option String := none
  cols : Option Nat := none
  rows : Option Nat := none
deriving DecidableEq, Repr

/-- `portable_pty::PtySize` (pixel fields always zero in this code). -/
structure PtySizeModel where
  rows : Nat
  cols : Nat
  pixel_width : Nat := 0
  pixel_height : Nat := 0
deriving DecidableEq, Repr

/-- OS oracle for one `spawn_pty` invocation. -/
structure PtyOracle where
  openPtyOk : Bool := true
  spawnOk : Bool := true
  takeWriterOk : Bool := true
  cloneReaderOk : Bool := true
deriving DecidableEq, Repr

/-- Synchronous outcome of one `spawn_pty` call. -/
structure SpawnPtyOutcome where
  result : Except String String
  agentUsed : Agent
  sizeUsed : PtySizeModel
  argv : List String
  registered : Bool
  events : List PtyEvent
deriving DecidableEq, Repr

/-- `spawn_pty`, synchronous part: resolve the agent, default the
dimensions (`cols.unwrap_or(120)`, `rows.unwrap_or(24)`), open the PTY
at that size, build the command (auto-approve flag, then
`--append-system-prompt` when the agent supports it), spawn, take the
writer and reader; on success register the session and emit `Started`.
The reader loop and the exit-poll task are modelled by the transition
system below. -/
def spawn_pty_model (args : SpawnPtyArgs) (o : PtyOracle) (sid : String) : SpawnPtyOutcome :=
  let agent := resolveAgent args.agent
  let cols := args.cols.getD 120
  let rows := args.rows.getD 24
  let size : PtySizeModel := { rows := rows, cols := cols }
  let argv :=
    (match agent.auto_approve_flag with
     | some flag => [flag]
     | none => [])
    ++ (if agent.supports_append_system_prompt then
          match args.append_system_prompt with
          | some system_prompt => ["--append-system-prompt", system_prompt]
          | none => []
        else [])
  if !o.openPtyOk then
    { result := .error "Failed to open PTY: io error", agentUsed := agent, sizeUsed := size,
      argv := argv, registered := false, events := [] }
  else if !o.spawnOk then
    { result := .error ("Failed to spawn " ++ agent.binary ++ " in PTY: spawn error"),
      agentUsed := agent, sizeUsed := size, argv := argv, registered := false, events := [] }
  else if !o.takeWriterOk then
    { result := .error "Failed to get PTY writer: io error", agentUsed := agent,
      sizeUsed := size, argv := argv, registered := false, events := [] }
  else if !o.cloneReaderOk then
    { result := .error "Failed to get PTY reader: io error", agentUsed := agent,
      sizeUsed := size, argv := argv, registered := false, events := [] }
  else
    { result := .ok sid, agentUsed := agent, sizeUsed := size, argv := argv,
      registered := true, events := [.started sid] }

/-- Model of Rust `str::trim` (drop whitespace on both ends). -/
def rustTrim (s : String) : String :=
  ⟨((s.data.dropWhile Char.isWhitespace).reverse.dropWhile Char.isWhitespace).reverse⟩

/-- Oracle for one `claude --version`style availability check. -/
structure VersionOracle where
  runOk : Bool := true
  statusSuccess : Bool := true
  stdout : String := ""
deriving DecidableEq, Repr

/-- Outcome of `check_agent_available`. -/
structure CheckOutcome where
  result : Except String String
  agentUsed : Agent
deriving DecidableEq, Repr

/-- `process.rs` `check_agent_available`: resolve the agent (same
fallback), run `<binary> --version`; a failed launch gives "CLI not
found", a nonzero status "CLI returned error", success the trimmed
stdout. -/
def check_agent_available_model (agent : Option String) (o : VersionOracle) : CheckOutcome :=
  let resolved := resolveAgent agent
  if !o.runOk then
    { result := .error (resolved.binary ++ " CLI not found: launch error"),
      agentUsed := resolved }
  else if o.statusSuccess then
    { result := .ok (rustTrim o.stdout), agentUsed := resolved }
  else
    { result := .error (resolved.binary ++ " CLI returned error"), agentUsed := resolved }

/-- C9: absent `cols`/`rows` default to 120 columns and 24 rows; supplied
values are used unchanged. -/
theorem pty_default_dimensions (args : SpawnPtyArgs) (o : PtyOracle) (sid : String) :
    (args.cols = none → (spawn_pty_model args o sid).sizeUsed.cols = 120) ∧
    (args.rows = none → (spawn_pty_model args o sid).sizeUsed.rows = 24) ∧
    (∀ c, args.cols = some c → (spawn_pty_model args o sid).sizeUsed.cols = c) ∧
    (∀ r, args.rows = some r → (spawn_pty_model args o sid).sizeUsed.rows = r) := by
  have hsize : (spawn_pty_model args o sid).sizeUsed =
      { rows := args.rows.getD 24, cols := args.cols.getD 120 } := by
    unfold spawn_pty_model
    split_ifs <;> rfl
  refine ⟨fun h => ?_, fun h => ?_, fun c h => ?_, fun r h => ?_⟩ <;> rw [hsize] <;> simp [h]

/-- C9 witness: defaults at absent fields, pass-through at supplied ones. -/
theorem pty_default_dimensions_witness :
    (spawn_pty_model {} {} "s1").sizeUsed.cols = 120 ∧
    (spawn_pty_model {} {} "s1").sizeUsed.rows = 24 ∧
    (spawn_pty_model { cols := some 80, rows := some 50 } {} "s1").sizeUsed.cols = 80 ∧
    (spawn_pty_model { cols := some 80, rows := some 50 } {} "s1").sizeUsed.rows = 50 :=
  ⟨(pty_default_dimensions {} {} "s1").1 rfl,
    (pty_default_dimensions {} {} "s1").2.1 rfl,
    (pty_default_dimensions { cols := some 80, rows := some 50 } {} "s1").2.2.1 80 rfl,
    (pty_default_dimensions { cols := some 80, rows := some 50 } {} "s1").2.2.2 50 rfl⟩

/-- C7: an absent or unknown agent identifier resolves to the default
agent (Claude) — never an error — and all three entry points
(`spawn_agent`, `spawn_pty`, `check_agent_available`) use exactly this
resolution. -/
theorem unknown_agent_resolves_to_default :
    resolveAgent none = Agent.Claude ∧
    (∀ s, Agent.from_str_opt s = none → resolveAgent (some s) = Agent.Claude) ∧
    (∀ args o pid, (spawn_agent_model args o pid).agentUsed = resolveAgent args.agent) ∧
    (∀ args o sid, (spawn_pty_model args o sid).agentUsed = resolveAgent args.agent) ∧
    (∀ a o, (check_agent_available_model a o).agentUsed = resolveAgent a) := by
  refine ⟨rfl, fun s h => ?_, fun args o pid => ?_, fun args o sid => ?_, fun a o => ?_⟩
  · simp [resolveAgent, h]
  · unfold spawn_agent_model
    dsimp only
    split
    · exact spawn_agent_build_fst args o pid
    · split_ifs <;> exact spawn_agent_build_fst args o pid
  · unfold spawn_pty_model
    split_ifs <;> rfl
  · unfold check_agent_available_model
    split_ifs <;> rfl

/-- C7 witness: an unknown identifier resolves to Claude. -/
theorem unknown_agent_resolves_to_default_witness :
    resolveAgent (some "mystery-agent") = Agent.Claude :=
  unknown_agent_resolves_to_default.2.1 "mystery-agent" (by decide)

/-- `process_manager.rs` `ProcessEntry`: the consumable kill sender is
`some receiverAlive` while present (`receiverAlive` says whether the
supervisor still listens, i.e. whether `send` would succeed) and `none`
once taken. -/
structure ProcessEntry where
  kill_tx : Option Bool
  stage_execution_id : Option String := none
deriving DecidableEq, Repr

/-- `process_manager.rs` `ProcessManager`: the mutex-guarded map,
modelled as an association list (first occurrence wins). -/
structure PMState where
  processes : List (String × ProcessEntry)
deriving DecidableEq, Repr

/-- The body of `ProcessManager::kill` over the underlying list:
look up the entry; `take()` the sender (leaving `None`); a dead receiver
makes `send` fail ("Process already exited"); an already-taken sender
gives "Kill signal already sent"; an unknown id "Process not found". -/
def pmKillGo : List (String × ProcessEntry) → String → Except String Unit × List (String × ProcessEntry)
  | [], _ => (.error "Process not found", [])
  | (k, e) :: rest, process_id =>
    if k == process_id then
      match e.kill_tx with
      | some alive =>
        let e' := { e with kill_tx := none }
        if alive then (.ok (), (k, e') :: rest)
        else (.error "Process already exited", (k, e') :: rest)
      | none => (.error "Kill signal already sent", (k, e) :: rest)
    else
      let (r, rest') := pmKillGo rest process_id
      (r, (k, e) :: rest')

/-- `ProcessManager::kill`. -/
def ProcessManager.kill (st : PMState) (process_id : String) : Except String Unit × PMState :=
  let (r, ps) := pmKillGo st.processes process_id
  (r, ⟨ps⟩)

/-- `pty_manager.rs` `PtyEntry` (writer, child and master PTY handles are
opaque to `kill` and omitted). -/
structure PtyEntryModel where
  kill_tx : Option Bool
deriving DecidableEq, Repr

/-- `pty_manager.rs` `PtyManager`. -/
structure PtyMState where
  sessions : List (String × PtyEntryModel)
deriving DecidableEq, Repr

/-- The body of `PtyManager::kill`: like the process variant, except
that an already-taken sender falls through to `Ok(())` — the source's
`if let Some(tx) = entry.kill_tx.take()` has no `else`. -/
def ptyKillGo : List (String × PtyEntryModel) → String → Except String Unit × List (String × PtyEntryModel)
  | [], _ => (.error "PTY session not found", [])
  | (k, e) :: rest, id =>
    if k == id then
      match e.kill_tx with
      | some alive =>
        let e' := { e with kill_tx := none }
        if alive then (.ok (), (k, e') :: rest)
        else (.error "PTY already exited", (k, e') :: rest)
      | none => (.ok (), (k, e) :: rest)
    else
      let (r, rest') := ptyKillGo rest id
      (r, (k, e) :: rest')

/-- `PtyManager::kill`. -/
def PtyManager.kill (st : PtyMState) (id : String) : Except String Unit × PtyMState :=
  let (r, ps) := ptyKillGo st.sessions id
  (r, ⟨ps⟩)

/-- C2 counterexample: on a still-registered PTY session, the second
`kill` after a successful one silently succeeds — it returns `Ok(())`,
not a distinct "already signaled" error. -/
theorem pty_double_kill_silently_succeeds :
    (PtyManager.kill ⟨[("s1", ⟨some true⟩)]⟩ "s1").1 = .ok () ∧
    (PtyManager.kill (PtyManager.kill ⟨[("s1", ⟨some true⟩)]⟩ "s1").2 "s1").1 = .ok () := by
  exact ⟨rfl, rfl⟩

/-- First-occurrence lookup spec for `pmKillGo`. -/
theorem pmKillGo_double (ps : List (String × ProcessEntry)) (id : String)
    (e : ProcessEntry) (hl : ps.lookup id = some e) (ha : e.kill_tx = some true) :
    (pmKillGo ps id).1 = .ok () ∧
    (pmKillGo (pmKillGo ps id).2 id).1 = .error "Kill signal already sent" := by
  induction ps with
  | nil => simp [List.lookup] at hl
  | cons p rest ih =>
    obtain ⟨k, ent⟩ := p
    by_cases hk : k = id
    · subst hk
      rw [List.lookup] at hl
      simp at hl
      subst hl
      simp [pmKillGo, ha]
    · have hk' : (k == id) = false := beq_eq_false_iff_ne.mpr hk
      rw [List.lookup] at hl
      have hk'' : (id == k) = false := beq_eq_false_iff_ne.mpr (Ne.symm hk)
      rw [hk''] at hl
      try dsimp at hl
      obtain ⟨h1, h2⟩ := ih hl
      simp only [pmKillGo, hk']
      try dsimp only
      constructor
      · simpa using h1
      · try simp only [pmKillGo, hk']
        try dsimp only
        simpa using h2

/-- First-occurrence lookup spec for `ptyKillGo`: the second kill is a
silent success. -/
theorem ptyKillGo_double (ps : List (String × PtyEntryModel)) (id : String)
    (e : PtyEntryModel) (hl : ps.lookup id = some e) (ha : e.kill_tx = some true) :
    (ptyKillGo ps id).1 = .ok () ∧
    (ptyKillGo (ptyKillGo ps id).2 id).1 = .ok () := by
  induction ps with
  | nil => simp [List.lookup] at hl
  | cons p rest ih =>
    obtain ⟨k, ent⟩ := p
    by_cases hk : k = id
    · subst hk
      rw [List.lookup] at hl
      simp at hl
      subst hl
      simp [ptyKillGo, ha]
    · have hk' : (k == id) = false := beq_eq_false_iff_ne.mpr hk
      rw [List.lookup] at hl
      have hk'' : (id == k) = false := beq_eq_false_iff_ne.mpr (Ne.symm hk)
      rw [hk''] at hl
      try dsimp at hl
      obtain ⟨h1, h2⟩ := ih hl
      simp only [ptyKillGo, hk']
      try dsimp only
      constructor
      · simpa using h1
      · try simp only [ptyKillGo, hk']
        try dsimp only
        simpa using h2

/-- Unknown ids always fail with "PTY session not found". -/
theorem ptyKillGo_not_found (ps : List (String × PtyEntryModel)) (id : String)
    (hl : ps.lookup id = none) : (ptyKillGo ps id).1 = .error "PTY session not found" := by
  induction ps with
  | nil => rfl
  | cons p rest ih =>
    obtain ⟨k, ent⟩ := p
    rw [List.lookup] at hl
    by_cases hk : k = id
    · subst hk
      simp at hl
    · have hk' : (k == id) = false := beq_eq_false_iff_ne.mpr hk
      have hk'' : (id == k) = false := beq_eq_false_iff_ne.mpr (Ne.symm hk)
      rw [hk''] at hl
      try dsimp at hl
      simp only [ptyKillGo, hk']
      try dsimp only
      simpa using ih hl

/-- C2 (amended): for `ProcessManager`, a second `kill` on a registered
id whose first `kill` succeeded returns the distinct error "Kill signal
already sent"; for `PtyManager`, the second `kill` on a still-registered
session silently returns `Ok(())` — the distinct "PTY session not found"
error arises only once the id is unregistered. Neither panics (both are
total functions). -/
theorem double_kill_behavior (pm : PMState) (pty : PtyMState) (id : String)
    (pe : ProcessEntry) (te : PtyEntryModel)
    (hpl : pm.processes.lookup id = some pe) (hpa : pe.kill_tx = some true)
    (htl : pty.sessions.lookup id = some te) (hta : te.kill_tx = some true) :
    ((ProcessManager.kill pm id).1 = .ok () ∧
      (ProcessManager.kill (ProcessManager.kill pm id).2 id).1 =
        .error "Kill signal already sent") ∧
    ((PtyManager.kill pty id).1 = .ok () ∧
      (PtyManager.kill (PtyManager.kill pty id).2 id).1 = .ok ()) ∧
    (∀ st : PtyMState, st.sessions.lookup id = none →
      (PtyManager.kill st id).1 = .error "PTY session not found") := by
  refine ⟨?_, ?_, fun st h => ?_⟩
  · have := pmKillGo_double pm.processes id pe hpl hpa
    exact this
  · have := ptyKillGo_double pty.sessions id te htl hta
    exact this
  · exact ptyKillGo_not_found st.sessions id h

/-- C2 witness: concrete one-entry registries. -/
theorem double_kill_behavior_witness :
    ((ProcessManager.kill ⟨[("p1", ⟨some true, none⟩)]⟩ "p1").1 = .ok () ∧
      (ProcessManager.kill (ProcessManager.kill ⟨[("p1", ⟨some true, none⟩)]⟩ "p1").2 "p1").1 =
        .error "Kill signal already sent") ∧
    ((PtyManager.kill ⟨[("p1", ⟨some true⟩)]⟩ "p1").1 = .ok () ∧
      (PtyManager.kill (PtyManager.kill ⟨[("p1", ⟨some true⟩)]⟩ "p1").2 "p1").1 = .ok ()) ∧
    (∀ st : PtyMState, st.sessions.lookup "p1" = none →
      (PtyManager.kill st "p1").1 = .error "PTY session not found") :=
  double_kill_behavior ⟨[("p1", ⟨some true, none⟩)]⟩ ⟨[("p1", ⟨some true⟩)]⟩ "p1"
    ⟨some true, none⟩ ⟨some true⟩ rfl rfl rfl rfl

/-- Phases of the piped completion task of `spawn_agent` (the async block
spawned at the end): race child-exit against the kill signal, await the
stdout reader, await the stderr reader, run `TempContext::cleanup`, send
`Completed`, remove the registry entry. -/
inductive SupPhase where
  | racing
  | joinStdout
  | joinStderr
  | cleaning
  | emitting
  | removing
  | finished
deriving DecidableEq, Repr

/-- Progress order of the supervisor phases. -/
def phaseIdx : SupPhase → Nat
  | .racing => 0
  | .joinStdout => 1
  | .joinStderr => 2
  | .cleaning => 3
  | .emitting => 4
  | .removing => 5
  | .finished => 6

/-- Global state of one piped invocation after a successful spawn: the
two line readers (their pending lines and whether they reached
end-of-stream), the child, the kill signal, the supervisor phase, the
registry entry, the cleanup counter and the emitted event trace. -/
structure PipedState where
  pid : String
  sid : Option String
  stdoutRem : List String
  stdoutDone : Bool
  stderrRem : List String
  stderrDone : Bool
  childExited : Bool
  exitCode : Option Int
  killRequested : Bool
  phase : SupPhase
  registered : Bool
  cleanups : Nat
  events : List AgentStreamEvent
deriving DecidableEq, Repr

/-- Interleaving small-step semantics of the piped supervisor and its
reader tasks (`process.rs`, the three `tokio::spawn` blocks). Readers
emit one event per pending line and observe end-of-stream only after
the child is gone; the supervisor races exit against cancellation, then
awaits both readers, cleans up, emits `Completed` and deregisters. -/
inductive PipedStep : PipedState → PipedState → Prop
  | childExit (s : PipedState) :
      s.childExited = false → PipedStep s { s with childExited := true }
  | killReq (s : PipedState) :
      s.registered = true → PipedStep s { s with killRequested := true }
  | stdoutEmit (s : PipedState) (l : String) (rest : List String) :
      s.stdoutDone = false → s.stdoutRem = l :: rest →
      PipedStep s { s with stdoutRem := rest, events := s.events ++ [.stdoutLine l] }
  | stdoutEof (s : PipedState) :
      s.stdoutDone = false → s.stdoutRem = [] → s.childExited = true →
      PipedStep s { s with stdoutDone := true }
  | stderrEmit (s : PipedState) (l : String) (rest : List String) :
      s.stderrDone = false → s.stderrRem = l :: rest →
      PipedStep s { s with stderrRem := rest, events := s.events ++ [.stderrLine l] }
  | stderrEof (s : PipedState) :
      s.stderrDone = false → s.stderrRem = [] → s.childExited = true →
      PipedStep s { s with stderrDone := true }
  | raceNatural (s : PipedState) (c : Option Int) :
      s.phase = .racing → s.childExited = true →
      PipedStep s { s with exitCode := c, phase := .joinStdout }
  | raceKill (s : PipedState) :
      s.phase = .racing → s.killRequested = true →
      PipedStep s { s with childExited := true, exitCode := none, phase := .joinStdout }
  | joinOut (s : PipedState) :
      s.phase = .joinStdout → s.stdoutDone = true →
      PipedStep s { s with phase := .joinStderr }
  | joinErr (s : PipedState) :
      s.phase = .joinStderr → s.stderrDone = true →
      PipedStep s { s with phase := .cleaning }
  | cleanupRun (s : PipedState) :
      s.phase = .cleaning →
      PipedStep s { s with cleanups := s.cleanups + 1, phase := .emitting }
  | emitCompleted (s : PipedState) :
      s.phase = .emitting →
      PipedStep s { s with events := s.events ++ [.completed s.pid s.exitCode],
                           phase := .removing }
  | removeEntry (s : PipedState) :
      s.phase = .removing →
      PipedStep s { s with registered := false, phase := .finished }

/-- The state right after `spawn_agent` returned: registered, `Started`
emitted, readers running, supervisor racing. -/
def pipedInit (pid : String) (sid : Option String) (outs errs : List String) : PipedState :=
  { pid := pid, sid := sid, stdoutRem := outs, stdoutDone := false, stderrRem := errs,
    stderrDone := false, childExited := false, exitCode := none, killRequested := false,
    phase := .racing, registered := true, cleanups := 0, events := [.started pid sid] }

/-- Reachability in the piped system. -/
def PipedReach : PipedState → PipedState → Prop :=
  Relation.ReflTransGen PipedStep

/-- Number of `Completed` events in a trace. -/
def completedCount (evs : List AgentStreamEvent) : Nat :=
  evs.countP fun e =>
    match e with
    | .completed _ _ => true
    | _ => false

/-- Invariant of the piped system: readers only finish with nothing
pending; phase progress implies the corresponding joins happened;
cleanup runs exactly once, between the joins and the `Completed` event;
`Completed` appears exactly once from the emitting transition on, always
as the last event; the registry entry survives until the final removal. -/
def PipedInv (s : PipedState) : Prop :=
  (s.stdoutDone = true → s.stdoutRem = []) ∧
  (s.stderrDone = true → s.stderrRem = []) ∧
  (2 ≤ phaseIdx s.phase → s.stdoutDone = true) ∧
  (3 ≤ phaseIdx s.phase → s.stderrDone = true) ∧
  (s.cleanups = if 4 ≤ phaseIdx s.phase then 1 else 0) ∧
  (if 5 ≤ phaseIdx s.phase
   then completedCount s.events = 1 ∧
     s.events.getLast? = some (.completed s.pid s.exitCode)
   else completedCount s.events = 0) ∧
  (s.registered = decide (phaseIdx s.phase ≤ 5))

theorem pipedInv_init (pid : String) (sid : Option String) (outs errs : List String) :
    PipedInv (pipedInit pid sid outs errs) := by
  unfold PipedInv pipedInit completedCount phaseIdx
  simp

theorem pipedStep_pid {a b : PipedState} (h : PipedStep a b) : b.pid = a.pid := by
  cases h <;> rfl

theorem pipedInv_step {a b : PipedState} (hinv : PipedInv a) (h : PipedStep a b) :
    PipedInv b := by
  obtain ⟨i1, i2, i3, i4, i5, i6, i7⟩ := hinv
  cases h with
  | childExit h1 =>
    exact ⟨i1, i2, i3, i4, i5, i6, i7⟩
  | killReq h1 =>
    exact ⟨i1, i2, i3, i4, i5, i6, i7⟩
  | stdoutEmit l rest h1 h2 =>
    refine ⟨?_, i2, i3, i4, i5, ?_, i7⟩
    · intro hd
      rw [hd] at h1
      cases h1
    · have hc : completedCount (a.events ++ [.stdoutLine l]) = completedCount a.events := by
        unfold completedCount
        rw [List.countP_append]
        rfl
      by_cases hp : 5 ≤ phaseIdx a.phase
      · exfalso
        have := i3 (by omega)
        rw [this] at h1
        cases h1
      · rw [if_neg hp] at i6
        rw [if_neg hp]
        dsimp only
        rw [hc]
        exact i6
  | stdoutEof h1 h2 h3 =>
    exact ⟨fun _ => h2, i2, fun _ => rfl, i4, i5, i6, i7⟩
  | stderrEmit l rest h1 h2 =>
    refine ⟨i1, ?_, i3, i4, i5, ?_, i7⟩
    · intro hd
      rw [hd] at h1
      cases h1
    · have hc : completedCount (a.events ++ [.stderrLine l]) = completedCount a.events := by
        unfold completedCount
        rw [List.countP_append]
        rfl
      by_cases hp : 5 ≤ phaseIdx a.phase
      · exfalso
        have := i4 (by omega)
        rw [this] at h1
        cases h1
      · rw [if_neg hp] at i6
        rw [if_neg hp]
        dsimp only
        rw [hc]
        exact i6
  | stderrEof h1 h2 h3 =>
    exact ⟨i1, fun _ => h2, i3, fun _ => rfl, i5, i6, i7⟩
  | raceNatural c h1 h2 =>
    rw [h1] at i3 i4 i5 i6 i7
    refine ⟨i1, i2, ?_, ?_, ?_, ?_, ?_⟩ <;> simp_all [phaseIdx]
  | raceKill h1 h2 =>
    rw [h1] at i3 i4 i5 i6 i7
    refine ⟨i1, i2, ?_, ?_, ?_, ?_, ?_⟩ <;> simp_all [phaseIdx]
  | joinOut h1 h2 =>
    rw [h1] at i3 i4 i5 i6 i7
    refine ⟨i1, i2, ?_, ?_, ?_, ?_, ?_⟩ <;> simp_all [phaseIdx]
  | joinErr h1 h2 =>
    rw [h1] at i3 i4 i5 i6 i7
    refine ⟨i1, i2, ?_, ?_, ?_, ?_, ?_⟩ <;> simp_all [phaseIdx]
  | cleanupRun h1 =>
    rw [h1] at i3 i4 i5 i6 i7
    refine ⟨i1, i2, ?_, ?_, ?_, ?_, ?_⟩ <;> simp_all [phaseIdx]
  | emitCompleted h1 =>
    rw [h1] at i3 i4 i5 i6 i7
    have hc : completedCount (a.events ++ [.completed a.pid a.exitCode]) =
        completedCount a.events + 1 := by
      unfold completedCount
      rw [List.countP_append]
      rfl
    refine ⟨i1, i2, fun _ => i3 (by decide),
      fun _ => i4 (by decide), ?_, ?_, ?_⟩
    · simp_all [phaseIdx]
    · rw [if_neg (by decide)] at i6
      dsimp only
      rw [if_pos (by decide)]
      refine ⟨by rw [hc, i6], by simp⟩
    · simp_all [phaseIdx]
  | removeEntry h1 =>
    rw [h1] at i3 i4 i5 i6 i7
    refine ⟨i1, i2, fun _ => i3 (by decide),
      fun _ => i4 (by decide), ?_, ?_, ?_⟩
    · simp_all [phaseIdx]
    · rw [if_pos (by decide)] at i6
      dsimp only
      rw [if_pos (by decide)]
      exact i6
    · simp [phaseIdx]

theorem piped_reach_inv (pid : String) (sid : Option String) (outs errs : List String)
    (s : PipedState) (h : PipedReach (pipedInit pid sid outs errs) s) :
    PipedInv s ∧ s.pid = pid := by
  induction h with
  | refl => exact ⟨pipedInv_init pid sid outs errs, rfl⟩
  | tail hr hs ih => exact ⟨pipedInv_step ih.1 hs, (pipedStep_pid hs).trans ih.2⟩

/-- Phases of the PTY exit task of `spawn_pty`: race the exit-polling
loop against the kill signal, then send `Exited`, then remove the
session. There is no join phase — the blocking reader loop is never
awaited. -/
inductive PtyPhase where
  | racing
  | emitting
  | removing
  | finished
deriving DecidableEq, Repr

/-- Progress order of the PTY exit-task phases. -/
def ptyPhaseIdx : PtyPhase → Nat
  | .racing => 0
  | .emitting => 1
  | .removing => 2
  | .finished => 3

/-- Global state of one PTY session after a successful spawn. -/
structure PtyTState where
  sid : String
  chunksRem : List String
  readerDone : Bool
  childExited : Bool
  killRequested : Bool
  exitCode : Option Int
  phase : PtyPhase
  registered : Bool
  events : List PtyEvent
deriving DecidableEq, Repr

/-- Interleaving small-step semantics of the PTY reader loop and exit
task (`pty.rs`, the `spawn_blocking` read loop and the `tokio::spawn`
exit task). The reader forwards chunks as `Output` events, fully
independently of the exit task: nothing orders its steps relative to
`Exited`. The poller observes a dead child (or a removed session), the
kill arm kills the child; either way `Exited` is sent and the session
removed without joining the reader. -/
inductive PtyTStep : PtyTState → PtyTState → Prop
  | childExit (s : PtyTState) :
      s.childExited = false → PtyTStep s { s with childExited := true }
  | killReq (s : PtyTState) :
      s.registered = true → PtyTStep s { s with killRequested := true }
  | readChunk (s : PtyTState) (c : String) (rest : List String) :
      s.readerDone = false → s.chunksRem = c :: rest →
      PtyTStep s { s with chunksRem := rest, events := s.events ++ [.output c] }
  | readEof (s : PtyTState) :
      s.readerDone = false → s.chunksRem = [] → s.childExited = true →
      PtyTStep s { s with readerDone := true }
  | pollExit (s : PtyTState) (c : Int) :
      s.phase = .racing → s.childExited = true → s.registered = true →
      PtyTStep s { s with exitCode := some c, phase := .emitting }
  | pollGone (s : PtyTState) :
      s.phase = .racing → s.registered = false →
      PtyTStep s { s with exitCode := none, phase := .emitting }
  | killResolve (s : PtyTState) :
      s.phase = .racing → s.killRequested = true →
      PtyTStep s { s with childExited := true, exitCode := none, phase := .emitting }
  | emitExited (s : PtyTState) :
      s.phase = .emitting →
      PtyTStep s { s with events := s.events ++ [.exited s.sid s.exitCode],
                           phase := .removing }
  | removeEntry (s : PtyTState) :
      s.phase = .removing →
      PtyTStep s { s with registered := false, phase := .finished }

/-- The state right after `spawn_pty` returned. -/
def ptyTInit (sid : String) (chunks : List String) : PtyTState :=
  { sid := sid, chunksRem := chunks, readerDone := false, childExited := false,
    killRequested := false, exitCode := none, phase := .racing, registered := true,
    events := [.started sid] }

/-- Reachability in the PTY system. -/
def PtyTReach : PtyTState → PtyTState → Prop :=
  Relation.ReflTransGen PtyTStep

/-- Number of `Exited` events in a trace. -/
def exitedCount (evs : List PtyEvent) : Nat :=
  evs.countP fun e =>
    match e with
    | .exited _ _ => true
    | _ => false

/-- Invariant of the PTY system: `Exited` appears exactly once from the
emit transition on, and never before. -/
def PtyTInv (s : PtyTState) : Prop :=
  exitedCount s.events = if 2 ≤ ptyPhaseIdx s.phase then 1 else 0

theorem ptyTInv_init (sid : String) (chunks : List String) : PtyTInv (ptyTInit sid chunks) := by
  unfold PtyTInv ptyTInit exitedCount ptyPhaseIdx
  simp

theorem ptyTInv_step {a b : PtyTState} (hinv : PtyTInv a) (h : PtyTStep a b) : PtyTInv b := by
  unfold PtyTInv at *
  cases h with
  | childExit h1 => exact hinv
  | killReq h1 => exact hinv
  | readChunk c rest h1 h2 =>
    dsimp only
    rw [show exitedCount (a.events ++ [.output c]) = exitedCount a.events by
      unfold exitedCount; rw [List.countP_append]; rfl]
    exact hinv
  | readEof h1 h2 h3 => exact hinv
  | pollExit c h1 h2 h3 =>
    rw [h1] at hinv
    simp_all [ptyPhaseIdx]
  | pollGone h1 h2 =>
    rw [h1] at hinv
    simp_all [ptyPhaseIdx]
  | killResolve h1 h2 =>
    rw [h1] at hinv
    simp_all [ptyPhaseIdx]
  | emitExited h1 =>
    rw [h1] at hinv
    rw [if_neg (by decide)] at hinv
    dsimp only
    rw [if_pos (by decide)]
    rw [show exitedCount (a.events ++ [.exited a.sid a.exitCode]) =
        exitedCount a.events + 1 by
      unfold exitedCount; rw [List.countP_append]; rfl]
    rw [hinv]
  | removeEntry h1 =>
    rw [h1] at hinv
    rw [if_pos (by decide)] at hinv
    dsimp only
    rw [if_pos (by decide)]
    exact hinv

theorem ptyT_reach_inv (sid : String) (chunks : List String) (s : PtyTState)
    (h : PtyTReach (ptyTInit sid chunks) s) : PtyTInv s := by
  induction h with
  | refl => exact ptyTInv_init sid chunks
  | tail hr hs ih => exact ptyTInv_step ih hs

/-- A concrete PTY state in which an `Output` event follows the `Exited`
event while the reader has not yet observed end-of-stream. -/
def ptyCounterState : PtyTState :=
  { sid := "s", chunksRem := [], readerDone := false, childExited := true,
    killRequested := false, exitCode := some 0, phase := .removing, registered := true,
    events := [.started "s", .exited "s" (some 0), .output "hi"] }

/-- C1 counterexample: the PTY supervisor never joins its reader, so a
schedule exists (child exits with a chunk still buffered; the poll loop
notices and `Exited` is sent; the reader then forwards the chunk) in
which `Exited` is emitted before an `Output` event of the same session
and before the reader observed end-of-stream — refuting the claim as
stated for PTY instances. -/
theorem pty_output_after_exited :
    PtyTReach (ptyTInit "s" ["hi"]) ptyCounterState ∧
    ptyCounterState.events = [.started "s", .exited "s" (some 0), .output "hi"] ∧
    ptyCounterState.readerDone = false ∧
    ptyCounterState.events.getLast? ≠ some (.exited "s" (some 0)) := by
  refine ⟨?_, rfl, rfl, by decide⟩
  exact Relation.ReflTransGen.tail
    (Relation.ReflTransGen.tail
      (Relation.ReflTransGen.tail
        (Relation.ReflTransGen.tail Relation.ReflTransGen.refl
          (PtyTStep.childExit _ rfl))
        (PtyTStep.pollExit _ 0 rfl rfl rfl))
      (PtyTStep.emitExited _ rfl))
    (PtyTStep.readChunk _ "hi" [] rfl rfl)

/-- C1 (amended): for piped instances the claim holds in full —
`Completed` is emitted at most once, whenever it has been emitted both
readers have observed end-of-stream with no line pending and it is the
last event of the trace, and a finished run has exactly one `Completed`
and exactly one cleanup. For PTY instances only exactly-once holds:
`Exited` is emitted exactly once per finished run, but (see the
counterexample) it need not follow all `Output` events nor the reader's
end-of-stream, because the reader task is never joined. -/
theorem terminal_event_discipline :
    (∀ pid sid outs errs s, PipedReach (pipedInit pid sid outs errs) s →
      completedCount s.events ≤ 1 ∧
      (1 ≤ completedCount s.events →
        s.stdoutDone = true ∧ s.stderrDone = true ∧ s.stdoutRem = [] ∧ s.stderrRem = [] ∧
        s.events.getLast? = some (.completed pid s.exitCode)) ∧
      (s.phase = .finished → completedCount s.events = 1 ∧ s.cleanups = 1)) ∧
    (∀ sid chunks s, PtyTReach (ptyTInit sid chunks) s →
      exitedCount s.events ≤ 1 ∧ (s.phase = .finished → exitedCount s.events = 1)) := by
  constructor
  · intro pid sid outs errs s h
    obtain ⟨⟨i1, i2, i3, i4, i5, i6, i7⟩, hpid⟩ := piped_reach_inv pid sid outs errs s h
    by_cases hp : 5 ≤ phaseIdx s.phase
    · rw [if_pos hp] at i6
      obtain ⟨hc, hl⟩ := i6
      have hsd := i3 (by omega)
      have hed := i4 (by omega)
      refine ⟨by omega, fun _ => ⟨hsd, hed, i1 hsd, i2 hed, by rw [hl, hpid]⟩, fun hf => ?_⟩
      refine ⟨hc, ?_⟩
      rw [hf] at i5
      simpa [phaseIdx] using i5
    · rw [if_neg hp] at i6
      refine ⟨by omega, fun hge => by omega, fun hf => ?_⟩
      exfalso
      rw [hf] at hp
      exact hp (by decide)
  · intro sid chunks s h
    have hinv := ptyT_reach_inv sid chunks s h
    unfold PtyTInv at hinv
    by_cases hp : 2 ≤ ptyPhaseIdx s.phase
    · rw [if_pos hp] at hinv
      exact ⟨by omega, fun _ => hinv⟩
    · rw [if_neg hp] at hinv
      refine ⟨by omega, fun hf => ?_⟩
      exfalso
      rw [hf] at hp
      exact hp (by decide)

/-- C1 witness: the amended theorem applied to freshly spawned piped and
PTY instances. -/
theorem terminal_event_discipline_witness :
    completedCount (pipedInit "p" none ["a"] []).events ≤ 1 ∧
    exitedCount (ptyTInit "s" ["a"]).events ≤ 1 :=
  ⟨(terminal_event_discipline.1 "p" none ["a"] [] _ Relation.ReflTransGen.refl).1,
    (terminal_event_discipline.2 "s" ["a"] _ Relation.ReflTransGen.refl).1⟩
